import Mathlib

/-!
Verification of the `tungstopterin` WebSocket core (crates/websocket).

Shallow embedding conventions:
* Rust byte vectors (`Vec<u8>`, `&[u8]`) are `List Nat`, each element a byte value.
* `u16`/`u32`/`u64` values are `Nat`; explicit `% 2 ^ w` appears exactly where the
  Rust code truncates (`to_be_bytes` on a fixed-width integer).
* Fallible conversions (`TryFrom`) return `Except`/`Option`.
* The random masking key drawn by `rand::rng().next_u32()` inside `Frame::new`
  is passed in as an explicit parameter `key`.
* A Rust `String` is represented by its UTF-8 byte list (for `Message::Text` and
  the Close reason); `String::from_utf8` becomes the validity check `isValidUtf8`.
* A partial operation whose panic branch matters (`Frame::mask`, the unwraps in
  `try_upgrade`) returns `Option`, with `none` modelling the panic.
-/

namespace Tungstopterin

/-- `enum Opcode` (src/crates/websocket/src/frame.rs). -/
inductive Opcode where
  | Continue
  | Text
  | Binary
  | Close
  | Ping
  | Pong
deriving DecidableEq

/-- The discriminant of `Opcode` (`opcode as u8`). -/
def Opcode.val : Opcode → Nat
  | .Continue => 0
  | .Text => 1
  | .Binary => 2
  | .Close => 8
  | .Ping => 9
  | .Pong => 10

/-- `impl TryFrom<u8> for Opcode`; `none` is `Err(InvalidOpcode)`. -/
def Opcode.tryFrom (value : Nat) : Option Opcode :=
  if value = 0 then some .Continue
  else if value = 1 then some .Text
  else if value = 2 then some .Binary
  else if value = 8 then some .Close
  else if value = 9 then some .Ping
  else if value = 10 then some .Pong
  else none

/-- `enum PayloadLen` (src/crates/websocket/src/frame.rs). -/
inductive PayloadLen where
  | ExactU8 (len : Nat)
  | ExactU16 (len : Nat)
  | ExactU64 (len : Nat)
  | HintU16
  | HintU64
deriving DecidableEq

/-- `impl From<u64> for PayloadLen`: the smallest possible variant is chosen. -/
def PayloadLen.ofU64 (value : Nat) : PayloadLen :=
  if value ≤ 125 then .ExactU8 value
  else if value ≤ 65535 then .ExactU16 value
  else .ExactU64 value

/-- `struct FrameHeader`. -/
structure FrameHeader where
  fin : Bool
  rsv : Nat
  opcode : Opcode
  masked : Bool
  payload_len : PayloadLen
deriving DecidableEq

/-- `struct Frame`. -/
structure Frame where
  header : FrameHeader
  masking_key : Option Nat
  payload : List Nat
deriving DecidableEq

/-- `FrameHeader::new`. -/
def FrameHeader.new (fin : Bool) (opcode : Opcode) (masked : Bool) (payload_len : Nat) :
    FrameHeader :=
  ⟨fin, 0, opcode, masked, PayloadLen.ofU64 payload_len⟩

/-- `Frame::new`; the key drawn from `rand::rng().next_u32()` is the parameter `key`. -/
def Frame.new (key : Nat) (fin : Bool) (opcode : Opcode) (payload : List Nat) : Frame :=
  ⟨FrameHeader.new fin opcode true payload.length, some key, payload⟩

/-- `u16::to_be_bytes`. -/
def be16 (n : Nat) : List Nat :=
  [n % 2 ^ 16 / 2 ^ 8, n % 2 ^ 8]

/-- `u32::to_be_bytes`. -/
def be32 (n : Nat) : List Nat :=
  [n % 2 ^ 32 / 2 ^ 24, n % 2 ^ 24 / 2 ^ 16, n % 2 ^ 16 / 2 ^ 8, n % 2 ^ 8]

/-- `u64::to_be_bytes`. -/
def be64 (n : Nat) : List Nat :=
  [n % 2 ^ 64 / 2 ^ 56, n % 2 ^ 56 / 2 ^ 48, n % 2 ^ 48 / 2 ^ 40, n % 2 ^ 40 / 2 ^ 32,
   n % 2 ^ 32 / 2 ^ 24, n % 2 ^ 24 / 2 ^ 16, n % 2 ^ 16 / 2 ^ 8, n % 2 ^ 8]

/-- `uN::from_be_bytes` on a byte list. -/
def beVal (bytes : List Nat) : Nat :=
  bytes.foldl (fun acc b => acc * 256 + b) 0

/-- `impl From<FrameHeader> for Vec<u8>`. -/
def FrameHeader.toBytes (value : FrameHeader) : List Nat :=
  let first_bit :=
    ((if value.fin then 1 else 0) <<< 7) ||| ((value.rsv &&& 7) <<< 4) ||| value.opcode.val
  let second_bit := (if value.masked then 1 else 0) <<< 7
  match value.payload_len with
  | .ExactU8 len => [first_bit, second_bit ||| len]
  | .ExactU16 len => [first_bit, second_bit ||| 126] ++ be16 len
  | .ExactU64 len => [first_bit, second_bit ||| 127] ++ be64 len
  | .HintU16 => [first_bit, second_bit ||| 126]
  | .HintU64 => [first_bit, second_bit ||| 127]

/-- `enum FrameError`. -/
inductive FrameError where
  | FrameTooShort
  | InvalidOpcode
  | LengthParsing
  | MaskingKeyParsing
  | PayloadTooShort
deriving DecidableEq

/-- Rust slice `value.get(start..start + len)`. -/
def sliceGet (v : List Nat) (start len : Nat) : Option (List Nat) :=
  if start + len ≤ v.length then some ((v.drop start).take len) else none

/-- Rust slice `value.get(start..)`. -/
def sliceFrom (v : List Nat) (start : Nat) : Option (List Nat) :=
  if start ≤ v.length then some (v.drop start) else none

/-- `impl TryFrom<&[u8]> for FrameHeader`. -/
def FrameHeader.tryFromBytes (value : List Nat) : Except FrameError FrameHeader :=
  if value.length < 2 then .error .FrameTooShort
  else
    let b0 := value.getD 0 0
    let b1 := value.getD 1 0
    let len_header := b1 &&& 127
    let payload_len :=
      if len_header ≤ 125 then PayloadLen.ExactU8 len_header
      else if len_header = 126 then
        match sliceGet value 2 2 with
        | some s => PayloadLen.ExactU16 (beVal s)
        | none => PayloadLen.HintU16
      else
        match sliceGet value 2 8 with
        | some s => PayloadLen.ExactU64 (beVal s)
        | none => PayloadLen.HintU64
    match Opcode.tryFrom (b0 &&& 15) with
    | none => .error .InvalidOpcode
    | some op => .ok ⟨b0 >>> 7 != 0, (b0 &&& 112) >>> 4, op, b1 >>> 7 != 0, payload_len⟩

/-- `impl From<Frame> for Vec<u8>`. -/
def Frame.toBytes (value : Frame) : List Nat :=
  value.header.toBytes ++
    (match value.masking_key with
     | some key => be32 key
     | none => []) ++
    value.payload

/-- The `masking_key_index` match inside `TryFrom<Vec<u8>> for Frame`;
`none` corresponds to the `Err(FrameError::LengthParsing)` arm. -/
def maskingKeyIndex : PayloadLen → Option Nat
  | .ExactU8 _ => some 2
  | .ExactU16 _ => some 4
  | .ExactU64 _ => some 10
  | _ => none

/-- `impl TryFrom<Vec<u8>> for Frame`; the `?` operators are written as explicit
matches on the intermediate `Except`/`Option` values. -/
def Frame.tryFromBytes (value : List Nat) : Except FrameError Frame :=
  match FrameHeader.tryFromBytes value with
  | .error e => .error e
  | .ok header =>
    match maskingKeyIndex header.payload_len with
    | none => .error .LengthParsing
    | some idx =>
      match (if header.masked then
              match sliceGet value idx 4 with
              | some bytes => Except.ok (some (beVal bytes))
              | none => Except.error FrameError.MaskingKeyParsing
             else Except.ok none) with
      | .error e => .error e
      | .ok masking_key =>
        match sliceFrom value (idx + 4) with
        | some payload => .ok ⟨header, masking_key, payload⟩
        | none => .error .PayloadTooShort

/-- Byte `i % 4` of the big-endian representation of the `u32` key
(`key.to_be_bytes()[index % 4]`). -/
def keyByte (key i : Nat) : Nat :=
  (be32 key).getD (i % 4) 0

/-- The XOR loop of `Frame::mask`, starting at payload index `i`. -/
def maskBytesFrom (key : Nat) : Nat → List Nat → List Nat
  | _, [] => []
  | i, b :: rest => (b ^^^ keyByte key i) :: maskBytesFrom key (i + 1) rest

/-- `Frame::mask`; `none` models the panic of `self.masking_key.unwrap()`. -/
def Frame.mask (f : Frame) : Option Frame :=
  match f.masking_key with
  | none => none
  | some key => some { f with payload := maskBytesFrom key 0 f.payload }

/-- `enum StatusCode` (src/crates/websocket/src/message.rs). -/
inductive StatusCode where
  | Normal
  | GoingAway
  | ProtocolError
  | UnsupportedData
  | NoStatus
  | CloseAbnormal
  | InvalidPayloadData
  | PolicyViolated
  | MessageTooBig
  | UnsupportedExtension
  | InternalServerError
deriving DecidableEq

/-- The discriminant of `StatusCode` (`code as u16`). -/
def StatusCode.val : StatusCode → Nat
  | .Normal => 1000
  | .GoingAway => 1001
  | .ProtocolError => 1002
  | .UnsupportedData => 1003
  | .NoStatus => 1005
  | .CloseAbnormal => 1006
  | .InvalidPayloadData => 1007
  | .PolicyViolated => 1008
  | .MessageTooBig => 1009
  | .UnsupportedExtension => 1010
  | .InternalServerError => 1011

/-- `impl From<u16> for StatusCode`; every unlisted value maps to `UnsupportedData`. -/
def StatusCode.ofU16 (value : Nat) : StatusCode :=
  if value = 1000 then .Normal
  else if value = 1001 then .GoingAway
  else if value = 1002 then .ProtocolError
  else if value = 1003 then .UnsupportedData
  else if value = 1005 then .NoStatus
  else if value = 1006 then .CloseAbnormal
  else if value = 1007 then .InvalidPayloadData
  else if value = 1008 then .PolicyViolated
  else if value = 1009 then .MessageTooBig
  else if value = 1010 then .UnsupportedExtension
  else if value = 1011 then .InternalServerError
  else .UnsupportedData

/-- `enum Message`; `Text` and the Close reason carry the UTF-8 bytes of the
Rust `String`. -/
inductive Message where
  | Text (payload : List Nat)
  | Binary (payload : List Nat)
  | Close (code : StatusCode) (reason : Option (List Nat))
  | Ping (payload : List Nat)
  | Pong (payload : List Nat)
deriving DecidableEq

/-- `impl From<&Message> for Opcode`. -/
def Message.opcode : Message → Opcode
  | .Text _ => .Text
  | .Binary _ => .Binary
  | .Close _ _ => .Close
  | .Ping _ => .Ping
  | .Pong _ => .Pong

/-- `enum MessageError`. -/
inductive MessageError where
  | ProtocolViolated (code : StatusCode)
  | IsNotFinal
deriving DecidableEq

/-- Is `b` a UTF-8 continuation byte (`0x80..=0xBF`)? -/
def utf8Cont (b : Nat) : Bool :=
  128 ≤ b && b ≤ 191

/-- The UTF-8 validity check performed by Rust `String::from_utf8`
(RFC 3629 well-formed byte sequences). -/
def isValidUtf8 : List Nat → Bool
  | [] => true
  | b :: rest =>
    if b ≤ 127 then isValidUtf8 rest
    else if 194 ≤ b && b ≤ 223 then
      match rest with
      | c1 :: r => utf8Cont c1 && isValidUtf8 r
      | [] => false
    else if b = 224 then
      match rest with
      | c1 :: c2 :: r => (160 ≤ c1 && c1 ≤ 191) && utf8Cont c2 && isValidUtf8 r
      | _ => false
    else if 225 ≤ b && b ≤ 236 then
      match rest with
      | c1 :: c2 :: r => utf8Cont c1 && utf8Cont c2 && isValidUtf8 r
      | _ => false
    else if b = 237 then
      match rest with
      | c1 :: c2 :: r => (128 ≤ c1 && c1 ≤ 159) && utf8Cont c2 && isValidUtf8 r
      | _ => false
    else if 238 ≤ b && b ≤ 239 then
      match rest with
      | c1 :: c2 :: r => utf8Cont c1 && utf8Cont c2 && isValidUtf8 r
      | _ => false
    else if b = 240 then
      match rest with
      | c1 :: c2 :: c3 :: r =>
        (144 ≤ c1 && c1 ≤ 191) && utf8Cont c2 && utf8Cont c3 && isValidUtf8 r
      | _ => false
    else if 241 ≤ b && b ≤ 243 then
      match rest with
      | c1 :: c2 :: c3 :: r => utf8Cont c1 && utf8Cont c2 && utf8Cont c3 && isValidUtf8 r
      | _ => false
    else if b = 244 then
      match rest with
      | c1 :: c2 :: c3 :: r =>
        (128 ≤ c1 && c1 ≤ 143) && utf8Cont c2 && utf8Cont c3 && isValidUtf8 r
      | _ => false
    else false

/-- `impl TryFrom<Frame> for Message`. -/
def Message.tryFromFrame (value : Frame) : Except MessageError Message :=
  if !value.header.fin then .error .IsNotFinal
  else
    match value.header.opcode with
    | .Continue => .error (.ProtocolViolated .ProtocolError)
    | .Text =>
      if isValidUtf8 value.payload then .ok (.Text value.payload)
      else .error (.ProtocolViolated .InvalidPayloadData)
    | .Binary => .ok (.Binary value.payload)
    | .Close =>
      match value.payload with
      | b0 :: b1 :: rest =>
        if isValidUtf8 rest then
          .ok (.Close (StatusCode.ofU16 (b0 * 256 + b1))
            (if rest.isEmpty then none else some rest))
        else .error (.ProtocolViolated .InvalidPayloadData)
      | _ => .error (.ProtocolViolated .InvalidPayloadData)
    | .Ping => .ok (.Ping value.payload)
    | .Pong => .ok (.Pong value.payload)

/-- `impl TryFrom<Vec<Frame>> for Message`. -/
def Message.tryFromFrames (value : List Frame) : Except MessageError Message :=
  match value with
  | [] => .error (.ProtocolViolated .UnsupportedData)
  | first :: rest =>
    if first.header.fin then Message.tryFromFrame first
    else
      let buffer := ((first :: rest).map Frame.payload).foldl (fun acc p => acc ++ p) []
      Message.tryFromFrame
        { first with
          header := { first.header with
            fin := true
            payload_len := PayloadLen.ofU64 buffer.length }
          payload := buffer }

/-- `impl From<Message> for Frame`; the random key of `Frame::new` is the
parameter `key`. -/
def Message.toFrame (key : Nat) (value : Message) : Frame :=
  let payload : List Nat :=
    match value with
    | .Text text => text
    | .Binary binary => binary
    | .Close code reason =>
      be16 code.val ++
        (match reason with
         | some s => s.take 123
         | none => [])
    | .Ping binary => binary.take 125
    | .Pong binary => binary.take 125
  Frame.new key true value.opcode payload

/-- `WsSendHalf<Server>::send` — the Initiator-role send path: convert the
message to a frame, call `frame.mask()`, serialize. `none` would model the
mask panic (unreachable here since `Frame::new` always sets a key). -/
def initiatorSendBytes (key : Nat) (message : Message) : Option (List Nat) :=
  (Message.toFrame key message).mask.map Frame.toBytes

/-- `WsSendHalf<Client>::send` — the Acceptor-role send path: convert the
message to a frame and serialize it without calling `frame.mask()`. -/
def acceptorSendBytes (key : Nat) (message : Message) : List Nat :=
  Frame.toBytes (Message.toFrame key message)

deriving instance DecidableEq for Except

/-- Outcome of one iteration of a receive loop. -/
inductive RecvOutcome where
  | panics
  | result (r : Except MessageError Message)
  | needsMoreFrames (frame : Frame)
deriving DecidableEq

/-- One iteration of the loop in `WsRecvHalf<Client>::receive` (Acceptor role),
given the bytes of one frame as delivered by `read_frame_bytes`: parse the
frame (parse failure is mapped to `ProtocolViolated(ProtocolError)`), then call
`frame.mask()` unconditionally — `panics` models the unwrap panic when the
parsed frame carries no masking key — and if `fin` convert to a `Message`,
otherwise push the frame and keep looping. -/
def acceptorReceiveStep (data : List Nat) : RecvOutcome :=
  match Frame.tryFromBytes data with
  | .error _ => .result (.error (.ProtocolViolated .ProtocolError))
  | .ok frame =>
    match frame.mask with
    | none => .panics
    | some f =>
      if f.header.fin then .result (Message.tryFromFrame f)
      else .needsMoreFrames f

/-- Rust `u8::to_ascii_lowercase` on a character. -/
def toAsciiLowercaseChar (c : Char) : Char :=
  if 65 ≤ c.toNat && c.toNat ≤ 90 then Char.ofNat (c.toNat + 32) else c

/-- Rust `str::to_ascii_lowercase` on a character list. -/
def lowerChars (l : List Char) : List Char :=
  l.map toAsciiLowercaseChar

/-- Rust `str::eq_ignore_ascii_case`. -/
def eqIgnoreAsciiCase (a b : String) : Bool :=
  lowerChars a.data == lowerChars b.data

/-- Rust `str::starts_with` for a literal pattern. -/
def startsWithStr (s pat : String) : Bool :=
  pat.data.isPrefixOf s.data

/-- Strip one trailing carriage return, as Rust `str::lines` does per line. -/
def stripCarriageReturn (l : List Char) : List Char :=
  if l.getLast? = some (Char.ofNat 13) then l.dropLast else l

/-- Worker for `rustLines`: split at newline characters, accumulator reversed. -/
def rustLinesGo : List Char → List Char → List (List Char)
  | [], [] => []
  | [], acc => [stripCarriageReturn acc.reverse]
  | c :: rest, acc =>
    if c = Char.ofNat 10 then stripCarriageReturn acc.reverse :: rustLinesGo rest []
    else rustLinesGo rest (c :: acc)

/-- Rust `str::lines`: split on `\n`, strip one trailing `\r` per line, and do
not yield a final empty line for a trailing newline. -/
def rustLines (s : String) : List String :=
  (rustLinesGo s.data []).map (fun l => String.mk l)

/-- `validate_upgrade_headers` (src/crates/websocket/src/handshake.rs). -/
def validate_upgrade_headers (request : String) : Bool :=
  let lines := rustLines request
  (lines.any (fun l => eqIgnoreAsciiCase l "upgrade: websocket")
    && lines.any (fun l => eqIgnoreAsciiCase l "connection: upgrade")
    && lines.any (fun l => eqIgnoreAsciiCase l "sec-websocket-version: 13")
    && lines.any (fun l => startsWithStr (String.mk (lowerChars l.data)) "host:")
    && lines.any (fun l => startsWithStr (String.mk (lowerChars l.data)) "sec-websocket-key:"))

/-- Worker for `splitOnce` on character lists. -/
def splitOnceChars : List Char → List Char → Option (List Char × List Char)
  | [], _ => none
  | c :: rest, sep =>
    if sep.isPrefixOf (c :: rest) then some ([], (c :: rest).drop sep.length)
    else
      match splitOnceChars rest sep with
      | some (a, b) => some (c :: a, b)
      | none => none

/-- Rust `str::split_once`. -/
def splitOnce (s sep : String) : Option (String × String) :=
  match splitOnceChars s.data sep.data with
  | some (a, b) => some (String.mk a, String.mk b)
  | none => none

/-- `impl IntoWebsocket for WsStream<Client>`: `try_upgrade` — the
Acceptor-side handshake. The parameter `respKey` abstracts
`generate_response_key` (SHA-1 plus base64, computed by external crates).
The result is the HTTP response written back, `none` modelling a panic on one
of the two unwraps. Note the source calls `validate_upgrade_headers(&request);`
as a bare statement and discards its boolean. -/
def tryUpgradeAccept (respKey : String → String) (request : String) : Option String :=
  let _valid := validate_upgrade_headers request
  match (rustLines request).find?
      (fun l => startsWithStr (String.mk (lowerChars l.data)) "sec-websocket-key:") with
  | none => none
  | some line =>
    match splitOnce line ": " with
    | none => none
    | some (_, key) =>
      some ("HTTP/1.1 101 Switching Protocols\r\nUpgrade: websocket\r\nConnection: upgrade\r\nSec-Websocket-Accept: "
        ++ respKey key ++ "\r\n\r\n")

/-- An upgrade request carrying every required header except
`Sec-WebSocket-Version: 13`. -/
def requestNoVersion : String :=
  "GET / HTTP/1.1\r\nHost: localhost\r\nUpgrade: websocket\r\nConnection: upgrade\r\nSec-WebSocket-Key: dGhlIHNhbXBsZSBub25jZQ==\r\n\r\n"

/-! ## Helper lemmas -/

theorem lor128_lt : ∀ x, x < 128 → 128 ||| x = 128 + x := by decide

theorem and127_lt : ∀ x, x < 128 → (128 + x) &&& 127 = x := by decide

theorem shr7_lt : ∀ x, x < 128 → (128 + x) >>> 7 = 1 := by decide

theorem maskBytesFrom_invol (key : Nat) (p : List Nat) :
    ∀ i, maskBytesFrom key i (maskBytesFrom key i p) = p := by
  induction p with
  | nil => intro i; rfl
  | cons b rest ih =>
    intro i
    simp only [maskBytesFrom, ih]
    rw [Nat.xor_assoc, Nat.xor_self, Nat.xor_zero]

/-- Decoding facts about the first header byte produced by the encoder when
`rsv = 0`: the opcode nibble, the fin bit and the rsv bits all read back. -/
theorem first_byte_facts (fin : Bool) (op : Opcode) :
    Opcode.tryFrom ((((if fin then 1 else 0) <<< 7) ||| ((0 &&& 7) <<< 4) ||| op.val) &&& 15)
        = some op
    ∧ (((((if fin then 1 else 0) <<< 7) ||| ((0 &&& 7) <<< 4) ||| op.val)) >>> 7 != 0) = fin
    ∧ ((((if fin then 1 else 0) <<< 7) ||| ((0 &&& 7) <<< 4) ||| op.val) &&& 112) >>> 4 = 0 := by
  cases fin <;> cases op <;> decide

theorem sliceGet_2_2 (b0 b1 e1 e2 : Nat) (rest : List Nat) :
    sliceGet (b0 :: b1 :: e1 :: e2 :: rest) 2 2 = some [e1, e2] := by
  unfold sliceGet
  rw [if_pos (by simp only [List.length_cons]; omega)]
  rfl

theorem sliceGet_2_8 (b0 b1 e1 e2 e3 e4 e5 e6 e7 e8 : Nat) (rest : List Nat) :
    sliceGet (b0 :: b1 :: e1 :: e2 :: e3 :: e4 :: e5 :: e6 :: e7 :: e8 :: rest) 2 8
      = some [e1, e2, e3, e4, e5, e6, e7, e8] := by
  unfold sliceGet
  rw [if_pos (by simp only [List.length_cons]; omega)]
  rfl

theorem sliceGet_2_4 (b0 b1 k1 k2 k3 k4 : Nat) (p : List Nat) :
    sliceGet (b0 :: b1 :: k1 :: k2 :: k3 :: k4 :: p) 2 4 = some [k1, k2, k3, k4] := by
  unfold sliceGet
  rw [if_pos (by simp only [List.length_cons]; omega)]
  rfl

theorem sliceGet_4_4 (b0 b1 e1 e2 k1 k2 k3 k4 : Nat) (p : List Nat) :
    sliceGet (b0 :: b1 :: e1 :: e2 :: k1 :: k2 :: k3 :: k4 :: p) 4 4 = some [k1, k2, k3, k4] := by
  unfold sliceGet
  rw [if_pos (by simp only [List.length_cons]; omega)]
  rfl

theorem sliceGet_10_4 (b0 b1 e1 e2 e3 e4 e5 e6 e7 e8 k1 k2 k3 k4 : Nat) (p : List Nat) :
    sliceGet (b0 :: b1 :: e1 :: e2 :: e3 :: e4 :: e5 :: e6 :: e7 :: e8 :: k1 :: k2 :: k3 :: k4 :: p)
        10 4
      = some [k1, k2, k3, k4] := by
  unfold sliceGet
  rw [if_pos (by simp only [List.length_cons]; omega)]
  rfl

theorem sliceFrom_6 (b0 b1 k1 k2 k3 k4 : Nat) (p : List Nat) :
    sliceFrom (b0 :: b1 :: k1 :: k2 :: k3 :: k4 :: p) 6 = some p := by
  unfold sliceFrom
  rw [if_pos (by simp only [List.length_cons]; omega)]
  rfl

theorem sliceFrom_8 (b0 b1 e1 e2 k1 k2 k3 k4 : Nat) (p : List Nat) :
    sliceFrom (b0 :: b1 :: e1 :: e2 :: k1 :: k2 :: k3 :: k4 :: p) 8 = some p := by
  unfold sliceFrom
  rw [if_pos (by simp only [List.length_cons]; omega)]
  rfl

theorem sliceFrom_14 (b0 b1 e1 e2 e3 e4 e5 e6 e7 e8 k1 k2 k3 k4 : Nat) (p : List Nat) :
    sliceFrom
        (b0 :: b1 :: e1 :: e2 :: e3 :: e4 :: e5 :: e6 :: e7 :: e8 :: k1 :: k2 :: k3 :: k4 :: p) 14
      = some p := by
  unfold sliceFrom
  rw [if_pos (by simp only [List.length_cons]; omega)]
  rfl

theorem beVal_key (key : Nat) (h : key < 2 ^ 32) :
    beVal [key % 2 ^ 32 / 2 ^ 24, key % 2 ^ 24 / 2 ^ 16, key % 2 ^ 16 / 2 ^ 8, key % 2 ^ 8]
      = key := by
  unfold beVal
  simp only [List.foldl]
  omega

theorem beVal_two (n : Nat) (h : n ≤ 65535) :
    beVal [n % 2 ^ 16 / 2 ^ 8, n % 2 ^ 8] = n := by
  unfold beVal
  simp only [List.foldl]
  omega

theorem beVal_eight (n : Nat) (h : n < 2 ^ 64) :
    beVal [n % 2 ^ 64 / 2 ^ 56, n % 2 ^ 56 / 2 ^ 48, n % 2 ^ 48 / 2 ^ 40, n % 2 ^ 40 / 2 ^ 32,
      n % 2 ^ 32 / 2 ^ 24, n % 2 ^ 24 / 2 ^ 16, n % 2 ^ 16 / 2 ^ 8, n % 2 ^ 8] = n := by
  unfold beVal
  simp only [List.foldl]
  omega

/-- Parsing the encoder's output for a masked header in the 7-bit length
class. -/
theorem header_parse_u8 (fin : Bool) (op : Opcode) (n : Nat) (rest : List Nat) (h : n ≤ 125) :
    FrameHeader.tryFromBytes
        ((((if fin then 1 else 0) <<< 7) ||| ((0 &&& 7) <<< 4) ||| op.val)
          :: (((if true then 1 else 0) <<< 7) ||| n) :: rest)
      = Except.ok ⟨fin, 0, op, true, PayloadLen.ExactU8 n⟩ := by
  have hsb : (((if true then 1 else 0) <<< 7) ||| n : Nat) = 128 + n := by
    rw [show (((if true then 1 else 0) <<< 7) : Nat) = 128 from rfl]
    exact lor128_lt n (by omega)
  unfold FrameHeader.tryFromBytes
  rw [if_neg (by simp only [List.length_cons]; omega)]
  rw [hsb]
  simp only [List.getD_cons_zero, List.getD_cons_succ]
  simp only [and127_lt n (by omega), shr7_lt n (by omega)]
  rw [if_pos h, (first_byte_facts fin op).1]
  simp only [(first_byte_facts fin op).2.1, (first_byte_facts fin op).2.2]
  rfl

/-- Parsing the encoder's output for a masked header in the 16-bit length
class. -/
theorem header_parse_u16 (fin : Bool) (op : Opcode) (e1 e2 : Nat) (rest : List Nat) :
    FrameHeader.tryFromBytes
        ((((if fin then 1 else 0) <<< 7) ||| ((0 &&& 7) <<< 4) ||| op.val)
          :: (((if true then 1 else 0) <<< 7) ||| 126) :: e1 :: e2 :: rest)
      = Except.ok ⟨fin, 0, op, true, PayloadLen.ExactU16 (beVal [e1, e2])⟩ := by
  have hsb : (((if true then 1 else 0) <<< 7) ||| 126 : Nat) = 254 := by decide
  unfold FrameHeader.tryFromBytes
  rw [if_neg (by simp only [List.length_cons]; omega)]
  have hc1 : ¬ ((254 : Nat) &&& 127 ≤ 125) := by decide
  have hc2 : ((254 : Nat) &&& 127 = 126) := by decide
  rw [hsb]
  simp only [List.getD_cons_zero, List.getD_cons_succ]
  rw [if_neg hc1, if_pos hc2, sliceGet_2_2, (first_byte_facts fin op).1]
  simp only [(first_byte_facts fin op).2.1, (first_byte_facts fin op).2.2]
  rfl

/-- Parsing the encoder's output for a masked header in the 64-bit length
class. -/
theorem header_parse_u64 (fin : Bool) (op : Opcode) (e1 e2 e3 e4 e5 e6 e7 e8 : Nat)
    (rest : List Nat) :
    FrameHeader.tryFromBytes
        ((((if fin then 1 else 0) <<< 7) ||| ((0 &&& 7) <<< 4) ||| op.val)
          :: (((if true then 1 else 0) <<< 7) ||| 127)
          :: e1 :: e2 :: e3 :: e4 :: e5 :: e6 :: e7 :: e8 :: rest)
      = Except.ok
          ⟨fin, 0, op, true, PayloadLen.ExactU64 (beVal [e1, e2, e3, e4, e5, e6, e7, e8])⟩ := by
  have hsb : (((if true then 1 else 0) <<< 7) ||| 127 : Nat) = 255 := by decide
  unfold FrameHeader.tryFromBytes
  rw [if_neg (by simp only [List.length_cons]; omega)]
  have hc1 : ¬ ((255 : Nat) &&& 127 ≤ 125) := by decide
  have hc2 : ¬ ((255 : Nat) &&& 127 = 126) := by decide
  rw [hsb]
  simp only [List.getD_cons_zero, List.getD_cons_succ]
  rw [if_neg hc1, if_neg hc2, sliceGet_2_8, (first_byte_facts fin op).1]
  simp only [(first_byte_facts fin op).2.1, (first_byte_facts fin op).2.2]
  rfl

/-- A final frame never converts to the `IsNotFinal` error. -/
theorem tryFromFrame_final_ne_isNotFinal (fr : Frame) (h : fr.header.fin = true) :
    Message.tryFromFrame fr ≠ Except.error MessageError.IsNotFinal := by
  intro hcon
  unfold Message.tryFromFrame at hcon
  rw [h] at hcon
  simp only [Bool.not_true, Bool.false_eq_true, if_false] at hcon
  cases hop : fr.header.opcode <;> rw [hop] at hcon <;>
    (try split at hcon) <;> (try split at hcon) <;> (try split at hcon) <;> simp_all

/-- A masked `FrameHeader` built through `PayloadLen.ofU64` serializes to a byte
list whose second byte has its top bit set. -/
theorem toBytes_new_shape (fin : Bool) (op : Opcode) (n : Nat) :
    ∃ first second tail,
      FrameHeader.toBytes ⟨fin, 0, op, true, PayloadLen.ofU64 n⟩ = first :: second :: tail
      ∧ second >>> 7 = 1 := by
  unfold FrameHeader.toBytes PayloadLen.ofU64
  by_cases h1 : n ≤ 125
  · rw [if_pos h1]
    refine ⟨_, _, _, rfl, ?_⟩
    show ((if true then 1 else 0) <<< 7 ||| n) >>> 7 = 1
    simp only [if_true]
    have : (1 : Nat) <<< 7 = 128 := by decide
    rw [this, lor128_lt n (by omega), shr7_lt n (by omega)]
  · by_cases h2 : n ≤ 65535
    · rw [if_neg h1, if_pos h2]
      refine ⟨_, _, _, rfl, ?_⟩
      show ((if true then 1 else 0) <<< 7 ||| 126) >>> 7 = 1
      decide
    · rw [if_neg h1, if_neg h2]
      refine ⟨_, _, _, rfl, ?_⟩
      show ((if true then 1 else 0) <<< 7 ||| 127) >>> 7 = 1
      decide

/-! ## Claim theorems -/

/-- C1 counterexample: the valid unmasked empty `Text` frame (fin, rsv=0, valid
opcode, mask flag clear with no key, declared length 0 matching the payload)
does not survive the encode-then-decode round trip: decoding its serialized
bytes fails with `PayloadTooShort` instead of returning the frame. -/
theorem frame_roundtrip_unmasked_cex :
    Frame.tryFromBytes
        (Frame.toBytes ⟨⟨true, 0, Opcode.Text, false, PayloadLen.ExactU8 0⟩, none, []⟩)
      = Except.error FrameError.PayloadTooShort := by decide

/-- C1 (amended): for every valid masked Frame — rsv = 0, mask flag set with a
32-bit key present, payload length declared through the `From<u64>` conversion
— serializing to bytes and parsing back succeeds and returns the identical
frame (header fields, masking key and payload), with no masking applied in
between. (Unmasked frames do not round-trip: the parser always skips 4
masking-key bytes, see the counterexample.) -/
theorem frame_roundtrip_masked (f : Frame) (key : Nat)
    (hrsv : f.header.rsv = 0)
    (hmask : f.header.masked = true)
    (hkey : f.masking_key = some key)
    (hk32 : key < 2 ^ 32)
    (hlen : f.header.payload_len = PayloadLen.ofU64 f.payload.length)
    (hfit : f.payload.length < 2 ^ 64) :
    Frame.tryFromBytes (Frame.toBytes f) = Except.ok f := by
  obtain ⟨⟨fin, rsv, op, mkd, pl⟩, mk, p⟩ := f
  have h1 : rsv = 0 := hrsv
  have h2 : mkd = true := hmask
  have h3 : mk = some key := hkey
  have h4 : pl = PayloadLen.ofU64 p.length := hlen
  subst h1 h2 h3 h4
  have hfitp : p.length < 2 ^ 64 := hfit
  by_cases hc1 : p.length ≤ 125
  · have he : PayloadLen.ofU64 p.length = PayloadLen.ExactU8 p.length := by
      unfold PayloadLen.ofU64; rw [if_pos hc1]
    rw [he]
    have htb : Frame.toBytes ⟨⟨fin, 0, op, true, PayloadLen.ExactU8 p.length⟩, some key, p⟩
        = (((if fin then 1 else 0) <<< 7) ||| ((0 &&& 7) <<< 4) ||| op.val)
          :: (((if true then 1 else 0) <<< 7) ||| p.length)
          :: (key % 2 ^ 32 / 2 ^ 24) :: (key % 2 ^ 24 / 2 ^ 16) :: (key % 2 ^ 16 / 2 ^ 8)
          :: (key % 2 ^ 8) :: p := rfl
    rw [htb]
    unfold Frame.tryFromBytes
    rw [header_parse_u8 fin op p.length _ hc1]
    simp only [maskingKeyIndex, if_true, Nat.reduceAdd, sliceGet_2_4, sliceFrom_6,
      beVal_key key hk32]
  · by_cases hc2 : p.length ≤ 65535
    · have he : PayloadLen.ofU64 p.length = PayloadLen.ExactU16 p.length := by
        unfold PayloadLen.ofU64; rw [if_neg hc1, if_pos hc2]
      rw [he]
      have htb : Frame.toBytes ⟨⟨fin, 0, op, true, PayloadLen.ExactU16 p.length⟩, some key, p⟩
          = (((if fin then 1 else 0) <<< 7) ||| ((0 &&& 7) <<< 4) ||| op.val)
            :: (((if true then 1 else 0) <<< 7) ||| 126)
            :: (p.length % 2 ^ 16 / 2 ^ 8) :: (p.length % 2 ^ 8)
            :: (key % 2 ^ 32 / 2 ^ 24) :: (key % 2 ^ 24 / 2 ^ 16) :: (key % 2 ^ 16 / 2 ^ 8)
            :: (key % 2 ^ 8) :: p := rfl
      rw [htb]
      unfold Frame.tryFromBytes
      rw [header_parse_u16 fin op (p.length % 2 ^ 16 / 2 ^ 8) (p.length % 2 ^ 8) _]
      simp only [beVal_two p.length (by omega), maskingKeyIndex, if_true, Nat.reduceAdd,
        sliceGet_4_4, sliceFrom_8, beVal_key key hk32]
    · have he : PayloadLen.ofU64 p.length = PayloadLen.ExactU64 p.length := by
        unfold PayloadLen.ofU64; rw [if_neg hc1, if_neg hc2]
      rw [he]
      have htb : Frame.toBytes ⟨⟨fin, 0, op, true, PayloadLen.ExactU64 p.length⟩, some key, p⟩
          = (((if fin then 1 else 0) <<< 7) ||| ((0 &&& 7) <<< 4) ||| op.val)
            :: (((if true then 1 else 0) <<< 7) ||| 127)
            :: (p.length % 2 ^ 64 / 2 ^ 56) :: (p.length % 2 ^ 56 / 2 ^ 48)
            :: (p.length % 2 ^ 48 / 2 ^ 40) :: (p.length % 2 ^ 40 / 2 ^ 32)
            :: (p.length % 2 ^ 32 / 2 ^ 24) :: (p.length % 2 ^ 24 / 2 ^ 16)
            :: (p.length % 2 ^ 16 / 2 ^ 8) :: (p.length % 2 ^ 8)
            :: (key % 2 ^ 32 / 2 ^ 24) :: (key % 2 ^ 24 / 2 ^ 16) :: (key % 2 ^ 16 / 2 ^ 8)
            :: (key % 2 ^ 8) :: p := rfl
      rw [htb]
      unfold Frame.tryFromBytes
      rw [header_parse_u64 fin op (p.length % 2 ^ 64 / 2 ^ 56) (p.length % 2 ^ 56 / 2 ^ 48)
        (p.length % 2 ^ 48 / 2 ^ 40) (p.length % 2 ^ 40 / 2 ^ 32) (p.length % 2 ^ 32 / 2 ^ 24)
        (p.length % 2 ^ 24 / 2 ^ 16) (p.length % 2 ^ 16 / 2 ^ 8) (p.length % 2 ^ 8) _]
      simp only [beVal_eight p.length hfitp, maskingKeyIndex, if_true, Nat.reduceAdd,
        sliceGet_10_4, sliceFrom_14, beVal_key key hk32]

/-- C1 witness: a concrete masked Binary frame round-trips. -/
theorem frame_roundtrip_masked_witness :
    Frame.tryFromBytes
        (Frame.toBytes ⟨⟨true, 0, Opcode.Binary, true, PayloadLen.ExactU8 2⟩, some 7, [1, 2]⟩)
      = Except.ok ⟨⟨true, 0, Opcode.Binary, true, PayloadLen.ExactU8 2⟩, some 7, [1, 2]⟩ :=
  frame_roundtrip_masked
    ⟨⟨true, 0, Opcode.Binary, true, PayloadLen.ExactU8 2⟩, some 7, [1, 2]⟩ 7
    rfl rfl rfl (by decide) (by decide) (by decide)

/-- C2: the accepting-side `try_upgrade` computes `validate_upgrade_headers`
but discards the result, so on a request missing `Sec-WebSocket-Version: 13`
(validation yields `false`) it still finds the key header and sends the
`HTTP/1.1 101 Switching Protocols` response, for any response-key derivation
function. -/
theorem acceptor_upgrade_ignores_validation :
    validate_upgrade_headers requestNoVersion = false
    ∧ (∀ respKey : String → String, (tryUpgradeAccept respKey requestNoVersion).isSome = true)
    ∧ tryUpgradeAccept (fun k => k) requestNoVersion =
        some "HTTP/1.1 101 Switching Protocols\r\nUpgrade: websocket\r\nConnection: upgrade\r\nSec-Websocket-Accept: dGhlIHNhbXBsZSBub25jZQ==\r\n\r\n" :=
  ⟨by decide, fun _ => rfl, by decide⟩

/-- C3 counterexample: a message sent through the Acceptor-role send path
(`WsSendHalf<Client>::send`) is emitted with the mask bit of its second byte
set and the 4-byte masking key on the wire, contradicting "mask bit clear, no
masking key on the wire". -/
theorem acceptor_send_sets_mask_bit_cex :
    acceptorSendBytes 305419896 (Message.Ping []) = [137, 128, 18, 52, 86, 120]
    ∧ (acceptorSendBytes 305419896 (Message.Ping [])).getD 1 0 >>> 7 = 1 := by decide

/-- C3 (amended): the Initiator-role send path emits the frame with the mask
bit set, the per-call key on the wire and the payload XOR-masked under it; the
Acceptor-role send path emits the payload without the XOR applied, but the
frame still has the mask bit set and carries the (unused) key on the wire. -/
theorem send_masking_asymmetry (key : Nat) (msg : Message) :
    initiatorSendBytes key msg =
      some ((Message.toFrame key msg).header.toBytes ++ be32 key
        ++ maskBytesFrom key 0 (Message.toFrame key msg).payload)
    ∧ acceptorSendBytes key msg =
      (Message.toFrame key msg).header.toBytes ++ be32 key ++ (Message.toFrame key msg).payload
    ∧ (acceptorSendBytes key msg).getD 1 0 >>> 7 = 1
    ∧ ((initiatorSendBytes key msg).getD []).getD 1 0 >>> 7 = 1 := by
  have hhdr : (Message.toFrame key msg).header =
      ⟨true, 0, msg.opcode, true, PayloadLen.ofU64 (Message.toFrame key msg).payload.length⟩ :=
    rfl
  obtain ⟨first, second, tail, hshape, hbit⟩ :=
    toBytes_new_shape true msg.opcode (Message.toFrame key msg).payload.length
  have h1 : initiatorSendBytes key msg =
      some ((Message.toFrame key msg).header.toBytes ++ be32 key
        ++ maskBytesFrom key 0 (Message.toFrame key msg).payload) := rfl
  have h2 : acceptorSendBytes key msg =
      (Message.toFrame key msg).header.toBytes ++ be32 key
        ++ (Message.toFrame key msg).payload := rfl
  refine ⟨h1, h2, ?_, ?_⟩
  · rw [h2, hhdr, hshape]
    simpa using hbit
  · rw [h1, hhdr, hshape]
    simpa using hbit

/-- C4 counterexample: the input `[0x81, 0x83, 0, 0, 0, 0]` declares a payload
length of 3 but carries no payload bytes after the masking key; `TryFrom`
nevertheless succeeds, with an empty payload, instead of rejecting it with the
payload-too-short error. -/
theorem frame_decode_len_mismatch_cex :
    (Frame.tryFromBytes [129, 131, 0, 0, 0, 0]).toOption.map
      (fun fr => (fr.header.payload_len, fr.payload.length))
      = some (PayloadLen.ExactU8 3, 0) := by decide

/-- C4 (amended): whenever `TryFrom<Vec<u8>>` succeeds, the payload is exactly
the input bytes from offset `masking_key_index + 4` onward, whatever length the
header declares; the parser never compares the declared `payload_len` with the
bytes actually available. -/
theorem frame_decode_payload_suffix (v : List Nat) (fr : Frame)
    (h : Frame.tryFromBytes v = Except.ok fr) :
    ∃ idx, maskingKeyIndex fr.header.payload_len = some idx
      ∧ idx + 4 ≤ v.length ∧ fr.payload = v.drop (idx + 4) := by
  unfold Frame.tryFromBytes at h
  split at h
  · exact absurd h (by simp)
  split at h
  · exact absurd h (by simp)
  split at h
  · exact absurd h (by simp)
  split at h
  · rename_i x1 header hh x2 idx hmkd x3 mk hmask x4 payload hsf
    injection h with h2
    subst h2
    refine ⟨idx, hmkd, ?_, ?_⟩
    · unfold sliceFrom at hsf
      split at hsf
      · omega
      · exact absurd hsf (by simp)
    · unfold sliceFrom at hsf
      split at hsf
      · injection hsf with h3
        exact h3.symm
      · exact absurd hsf (by simp)
  · exact absurd h (by simp)

/-- C4 witness: on the input `[0x81, 0x83, 0, 0, 0, 0]` the successful parse's
payload is the (empty) byte suffix after the masking key. -/
theorem frame_decode_payload_suffix_witness :
    ∃ idx,
      maskingKeyIndex
          (⟨⟨true, 0, Opcode.Text, true, PayloadLen.ExactU8 3⟩, some 0, []⟩ : Frame).header.payload_len
        = some idx
      ∧ idx + 4 ≤ ([129, 131, 0, 0, 0, 0] : List Nat).length
      ∧ (⟨⟨true, 0, Opcode.Text, true, PayloadLen.ExactU8 3⟩, some 0, []⟩ : Frame).payload
        = ([129, 131, 0, 0, 0, 0] : List Nat).drop (idx + 4) :=
  frame_decode_payload_suffix [129, 131, 0, 0, 0, 0]
    ⟨⟨true, 0, Opcode.Text, true, PayloadLen.ExactU8 3⟩, some 0, []⟩ (by decide)

/-- C5 counterexample: a final Close frame whose remainder after the 2-byte
status code is not valid UTF-8 converts to the `InvalidPayloadData` protocol
error, not to `Close` with `reason = None`. -/
theorem close_invalid_utf8_reason_cex :
    Message.tryFromFrame ⟨⟨true, 0, Opcode.Close, false, PayloadLen.ExactU8 3⟩, none, [3, 232, 255]⟩
      = Except.error (MessageError.ProtocolViolated StatusCode.InvalidPayloadData) := by decide

/-- C5 (amended): for a final Close frame whose payload is the 2-byte
big-endian status code followed by a remainder, an empty remainder yields
`Close` with `reason = None`, while a non-UTF-8 remainder fails with the
`InvalidPayloadData` protocol error. -/
theorem close_reason_decode (fr : Frame) (a b : Nat) (rest : List Nat)
    (hfin : fr.header.fin = true) (hop : fr.header.opcode = Opcode.Close)
    (hp : fr.payload = a :: b :: rest) :
    (rest = [] →
      Message.tryFromFrame fr = Except.ok (Message.Close (StatusCode.ofU16 (a * 256 + b)) none))
    ∧ (isValidUtf8 rest = false →
      Message.tryFromFrame fr
        = Except.error (MessageError.ProtocolViolated StatusCode.InvalidPayloadData)) := by
  unfold Message.tryFromFrame
  rw [hfin, hop, hp]
  constructor
  · intro hr
    subst hr
    have hv : isValidUtf8 ([] : List Nat) = true := by decide
    simp [hv]
  · intro hr
    simp [hr]

/-- C5 witness: the Close frame with payload exactly `[0x03, 0xE8]` (status
1000, empty remainder) decodes to `Close(Normal, None)`. -/
theorem close_reason_decode_witness :
    Message.tryFromFrame ⟨⟨true, 0, Opcode.Close, false, PayloadLen.ExactU8 2⟩, none, [3, 232]⟩
      = Except.ok (Message.Close (StatusCode.ofU16 (3 * 256 + 232)) none) :=
  (close_reason_decode
    ⟨⟨true, 0, Opcode.Close, false, PayloadLen.ExactU8 2⟩, none, [3, 232]⟩
    3 232 [] rfl rfl rfl).1 rfl

/-- C6: the Acceptor-role receive path calls `frame.mask()` on every parsed
frame; on the wire bytes `[0x81, 0x04, 97, 98, 99, 100]` of a frame whose mask
bit is clear, the frame parses with `masking_key = None` and the receive step
panics in the `unwrap` inside `Frame::mask` instead of producing a `Message`
or an error. -/
theorem acceptor_receive_unmasked_panics :
    acceptorReceiveStep [129, 4, 97, 98, 99, 100] = RecvOutcome.panics
    ∧ Frame.tryFromBytes [129, 4, 97, 98, 99, 100]
        = Except.ok ⟨⟨true, 0, Opcode.Text, false, PayloadLen.ExactU8 4⟩, none, []⟩ := by decide

/-- C7: masking is involutory — applying `Frame::mask` twice to any frame that
carries a masking key (any key, any payload including the empty one) restores
the original frame; each application XORs payload byte `i` with byte
`i mod 4` of the key's big-endian representation. -/
theorem mask_involution (f : Frame) (h : f.masking_key.isSome = true) :
    f.mask.bind Frame.mask = some f := by
  obtain ⟨hd, mk, p⟩ := f
  cases mk with
  | none => simp at h
  | some key =>
    simp only [Frame.mask, Option.bind, maskBytesFrom_invol]

/-- C7 witness: double masking restores a concrete frame. -/
theorem mask_involution_witness :
    (Frame.mask ⟨⟨true, 0, Opcode.Binary, true, PayloadLen.ExactU8 3⟩, some 99999, [1, 2, 3]⟩).bind
        Frame.mask
      = some ⟨⟨true, 0, Opcode.Binary, true, PayloadLen.ExactU8 3⟩, some 99999, [1, 2, 3]⟩ :=
  mask_involution
    ⟨⟨true, 0, Opcode.Binary, true, PayloadLen.ExactU8 3⟩, some 99999, [1, 2, 3]⟩ rfl

/-- C8: the frame sequence `[Text fin=false "ab", Continue fin=false "cd",
Continue fin=true "ef"]` reassembles to `Message::Text("abcdef")`, and a single
frame with fin=false converts directly to the `IsNotFinal` error. -/
theorem fragmentation_reassembly_example :
    Message.tryFromFrames
        [⟨⟨false, 0, Opcode.Text, false, PayloadLen.ExactU8 2⟩, none, [97, 98]⟩,
         ⟨⟨false, 0, Opcode.Continue, false, PayloadLen.ExactU8 2⟩, none, [99, 100]⟩,
         ⟨⟨true, 0, Opcode.Continue, false, PayloadLen.ExactU8 2⟩, none, [101, 102]⟩]
      = Except.ok (Message.Text [97, 98, 99, 100, 101, 102])
    ∧ Message.tryFromFrame ⟨⟨false, 0, Opcode.Text, false, PayloadLen.ExactU8 2⟩, none, [97, 98]⟩
      = Except.error MessageError.IsNotFinal := by decide

/-- C9 counterexample: converting the empty frame sequence yields the error
`ProtocolViolated(UnsupportedData)`, whose status is neither `ProtocolError`
nor `InvalidPayloadData`. -/
theorem empty_frames_status_cex :
    Message.tryFromFrames ([] : List Frame)
        = Except.error (MessageError.ProtocolViolated StatusCode.UnsupportedData)
    ∧ StatusCode.UnsupportedData ≠ StatusCode.ProtocolError
    ∧ StatusCode.UnsupportedData ≠ StatusCode.InvalidPayloadData := by decide

/-- C9 (amended): message-decode errors are surfaced — a final Text frame with
a non-UTF-8 payload yields `ProtocolViolated(InvalidPayloadData)`, a single
non-final frame yields the `IsNotFinal` error, and the empty frame sequence
yields `ProtocolViolated(UnsupportedData)` (not `ProtocolError` or
`InvalidPayloadData`). -/
theorem message_decode_error_statuses :
    (∀ fr : Frame, fr.header.fin = true → fr.header.opcode = Opcode.Text →
      isValidUtf8 fr.payload = false →
      Message.tryFromFrame fr
        = Except.error (MessageError.ProtocolViolated StatusCode.InvalidPayloadData))
    ∧ (∀ fr : Frame, fr.header.fin = false →
      Message.tryFromFrame fr = Except.error MessageError.IsNotFinal)
    ∧ Message.tryFromFrames ([] : List Frame)
        = Except.error (MessageError.ProtocolViolated StatusCode.UnsupportedData) := by
  refine ⟨?_, ?_, rfl⟩
  · intro fr hfin hop hutf
    unfold Message.tryFromFrame
    rw [hfin, hop]
    simp [hutf]
  · intro fr hfin
    unfold Message.tryFromFrame
    rw [hfin]
    simp

/-- C9 witness: the non-UTF-8 final Text frame with payload `[255]` yields
`InvalidPayloadData`. -/
theorem message_decode_error_statuses_witness :
    Message.tryFromFrame ⟨⟨true, 0, Opcode.Text, false, PayloadLen.ExactU8 1⟩, none, [255]⟩
      = Except.error (MessageError.ProtocolViolated StatusCode.InvalidPayloadData) :=
  message_decode_error_statuses.1
    ⟨⟨true, 0, Opcode.Text, false, PayloadLen.ExactU8 1⟩, none, [255]⟩ rfl rfl (by decide)

/-- C10: for every non-empty frame vector whose first frame has fin=false,
`TryFrom<Vec<Frame>>` never returns `IsNotFinal`: the synthesized combined
frame is forced to fin=true, so the single-frame conversion it delegates to
cannot take the non-final branch. -/
theorem tryFromFrames_no_isNotFinal (f : Frame) (fs : List Frame)
    (h : f.header.fin = false) :
    Message.tryFromFrames (f :: fs) ≠ Except.error MessageError.IsNotFinal := by
  simp only [Message.tryFromFrames]
  rw [h]
  simp only [Bool.false_eq_true, if_false]
  exact tryFromFrame_final_ne_isNotFinal _ rfl

/-- C10 witness: a singleton vector holding one non-final Text frame does not
yield `IsNotFinal` (its combined frame decodes as a complete message). -/
theorem tryFromFrames_no_isNotFinal_witness :
    Message.tryFromFrames [⟨⟨false, 0, Opcode.Text, false, PayloadLen.ExactU8 2⟩, none, [97, 98]⟩]
      ≠ Except.error MessageError.IsNotFinal :=
  tryFromFrames_no_isNotFinal
    ⟨⟨false, 0, Opcode.Text, false, PayloadLen.ExactU8 2⟩, none, [97, 98]⟩ [] rfl

end Tungstopterin
